import Mathlib

/-!
Shallow embedding of the collection pipeline of `src/src/system_info.cpp`
(repository `statio`).  Each probe reads OS-provided sources; those sources
are modelled as explicit environment records (absent files / failing calls
become `none`).  Unsigned 64-bit arithmetic is modelled on `Nat` with
explicit `% 2 ^ 64`; `double` values (only `cpu MHz`) are modelled on `Rat`.
-/

namespace Statio

/-! ### Character and string utilities (`trim`, `split`, `readFileFirstLine`) -/

/-- Models the C `isspace` predicate used by `trim` in `system_info.cpp`
(space, tab, newline, vertical tab, form feed, carriage return). -/
def isSpaceChar (c : Char) : Bool :=
  c == ' ' || c == '\t' || c == '\n' || c == Char.ofNat 11 || c == Char.ofNat 12 || c == '\r'

/-- Embeds `trim` of `system_info.cpp`: erase leading whitespace, then
trailing whitespace. -/
def trim (s : String) : String :=
  ⟨((s.toList.dropWhile fun c => isSpaceChar c).reverse.dropWhile fun c => isSpaceChar c).reverse⟩

/-- Helper for `splitCpp`: split at every delimiter, keeping all fields
including a trailing empty one. -/
def splitF (d : Char) : List Char → List (List Char)
  | [] => [[]]
  | c :: cs =>
    match splitF d cs with
    | [] => [[]]
    | t :: ts => if c = d then [] :: t :: ts else (c :: t) :: ts

/-- Embeds `split` of `system_info.cpp` (repeated `std::getline` with a
delimiter): like `splitF`, except that the field after a final trailing
delimiter (always empty) is not produced, because the last `getline` hits
end-of-input having read nothing and fails. -/
def splitCpp (s : String) (d : Char) : List String :=
  let ts := splitF d s.toList
  let ts := if ts.getLast? = some [] then ts.dropLast else ts
  ts.map fun cs => (⟨cs⟩ : String)

/-- Embeds `readFileFirstLine`: the environment supplies the raw first line
of the file (`none` when the file cannot be opened), the function trims it
and turns absence into the empty string. -/
def readFirst (o : Option String) : String :=
  match o with
  | some l => trim l
  | none => ""

/-- Substring containment, embedding `std::string::find(needle) != npos`. -/
def containsSub (needle hay : List Char) : Bool :=
  (List.range (hay.length + 1)).any fun i => needle.isPrefixOf (hay.drop i)

/-- Splits a line at the first occurrence of `c` (embedding
`line.find(c)` followed by the two `substr` calls); `none` when `c` does not
occur. -/
def findCharSplit (c : Char) (s : String) : Option (String × String) :=
  let cs := s.toList
  if c ∈ cs then
    some (⟨cs.takeWhile fun x => x ≠ c⟩, ⟨(cs.dropWhile fun x => x ≠ c).tail⟩)
  else none

/-! ### Numeric parsing (`std::stoul` / `std::stoull` / `std::stod`) -/

/-- Value of a list of decimal digit characters. -/
def digitsVal (cs : List Char) : Nat :=
  cs.foldl (fun a c => a * 10 + (c.toNat - 48)) 0

/-- Embeds `std::stoull` (and `std::stoul`, which on the target platform is
also 64-bit): skip leading whitespace, accept an optional sign, require at
least one decimal digit; a minus sign negates in unsigned 64-bit arithmetic;
`none` models the `invalid_argument` / `out_of_range` exceptions (no digits,
or magnitude exceeding the 64-bit range).  Non-decimal bases are not reached
by the callers (base argument defaults to 10). -/
def parseULL (s : String) : Option Nat :=
  let cs := s.toList.dropWhile fun c => isSpaceChar c
  let sr : Bool × List Char :=
    match cs with
    | '-' :: rest => (true, rest)
    | '+' :: rest => (false, rest)
    | _ => (false, cs)
  let ds := sr.2.takeWhile fun c => c.isDigit
  if ds = [] then none
  else
    let v := digitsVal ds
    if v < 2 ^ 64 then some (if sr.1 then (2 ^ 64 - v) % 2 ^ 64 else v)
    else none

/-- Embeds `std::stod` on the decimal forms that occur in the probed
sources: optional whitespace and sign, digits with an optional fractional
part, exact rational value.  Exponent, hexadecimal, infinity and NaN forms
of `strtod`, and binary double rounding, are not modelled. -/
def parseDouble (s : String) : Option Rat :=
  let cs := s.toList.dropWhile fun c => isSpaceChar c
  let sr : Bool × List Char :=
    match cs with
    | '-' :: rest => (true, rest)
    | '+' :: rest => (false, rest)
    | _ => (false, cs)
  let ip := sr.2.takeWhile fun c => c.isDigit
  let rest := sr.2.dropWhile fun c => c.isDigit
  let fp : List Char :=
    match rest with
    | '.' :: r2 => r2.takeWhile fun c => c.isDigit
    | _ => []
  if ip = [] ∧ fp = [] then none
  else
    let mag : Rat := (digitsVal ip : Rat) + (digitsVal fp : Rat) / (10 : Rat) ^ fp.length
    some (if sr.1 then -mag else mag)

/-! ### Unit conversion and 64-bit arithmetic -/

/-- Embeds `bytesToMB`. -/
def bytesToMB (bytes : Nat) : Nat := bytes / (1024 * 1024)

/-- Embeds `bytesToGB`. -/
def bytesToGB (bytes : Nat) : Nat := bytes / (1024 * 1024 * 1024)

/-- Unsigned 64-bit product (the C++ operands are 64-bit unsigned). -/
def mul64 (a b : Nat) : Nat := a * b % 2 ^ 64

/-- Unsigned 64-bit sum. -/
def add64 (a b : Nat) : Nat := (a + b) % 2 ^ 64

/-! ### Data model

Embeds the record types of the header `statio/system_info.hpp` (present in
the repository sources, staged as the second document inside
`src/include/statio/main_window.hpp`): field names, field order and the
member initializers are taken directly from the struct declarations there —
`std::string` members default-construct empty, the `unsigned int` /
`std::uint64_t` counters are initialized to `0`, `currentMHz` (a `double`,
modelled on `Rat`) to `0.0`, and `GpuInfo.detected` (a `bool`) to
`false`. -/

structure CpuInfo where
  model : String := ""
  logicalThreads : Nat := 0
  physicalCores : Nat := 0
  currentMHz : Rat := 0
  deriving DecidableEq

structure MemoryInfo where
  totalMB : Nat := 0
  freeMB : Nat := 0
  availableMB : Nat := 0
  swapTotalMB : Nat := 0
  swapFreeMB : Nat := 0
  deriving DecidableEq

structure OsInfo where
  distro : String := ""
  version : String := ""
  kernel : String := ""
  architecture : String := ""
  hostname : String := ""
  deriving DecidableEq

structure DiskInfo where
  mountPoint : String := ""
  filesystem : String := ""
  totalGB : Nat := 0
  freeGB : Nat := 0
  deriving DecidableEq

structure NetworkInfo where
  name : String := ""
  ipv4 : String := ""
  mac : String := ""
  rxBytes : Nat := 0
  txBytes : Nat := 0
  deriving DecidableEq

structure GpuInfo where
  adapter : String := ""
  detected : Bool := false
  deriving DecidableEq

structure SystemSnapshot where
  cpu : CpuInfo
  memory : MemoryInfo
  os : OsInfo
  disks : List DiskInfo
  network : List NetworkInfo
  gpus : List GpuInfo
  deriving DecidableEq

/-! ### CPU probe -/

/-- Environment of `collectCpuInfo`: the hardware-concurrency query result
and the lines of `/proc/cpuinfo` (`none` when the file cannot be opened). -/
structure CpuEnv where
  hardwareConcurrency : Nat
  cpuinfo : Option (List String)

/-- Embeds one iteration of the `collectCpuInfo` line loop. -/
def cpuStep (info : CpuInfo) (line : String) : CpuInfo :=
  match findCharSplit ':' line with
  | none => info
  | some kv =>
    let key := trim kv.1
    let value := trim kv.2
    if key = "model name" ∧ info.model = "" then { info with model := value }
    else if key = "cpu cores" ∧ info.physicalCores = 0 then
      match parseULL value with
      | some n => { info with physicalCores := n % 2 ^ 32 }
      | none => info
    else if key = "cpu MHz" ∧ info.currentMHz ≤ 0 then
      match parseDouble value with
      | some x => { info with currentMHz := x }
      | none => info
    else info

/-- Embeds `collectCpuInfo`. -/
def collectCpuInfo (env : CpuEnv) : CpuInfo :=
  let info : CpuInfo := { logicalThreads := env.hardwareConcurrency }
  match env.cpuinfo with
  | none => info
  | some lines => lines.foldl cpuStep info

/-! ### Memory probe -/

/-- Result fields of the `sysinfo` call used by `collectMemoryInfo`
(all unsigned 64-bit on the target platform). -/
structure SysinfoData where
  memUnit : Nat
  totalram : Nat
  freeram : Nat
  bufferram : Nat
  totalswap : Nat
  freeswap : Nat

/-- Environment of `collectMemoryInfo`: the `sysinfo` result (`none` when
the call fails) and the lines of `/proc/meminfo` (an unopenable file reads
as no lines). -/
structure MemEnv where
  sysinfo : Option SysinfoData
  meminfo : List String

/-- Embeds the inner token loop of the `MemAvailable:` scan: on a line with
the exact prefix `MemAvailable:`, the first token that `stoull` parses
(empty tokens skipped); `none` on any other line or when no token parses. -/
def memLineValue (line : String) : Option Nat :=
  if "MemAvailable:".toList.isPrefixOf line.toList then
    (splitCpp line ' ').findSome? fun t => if t = "" then none else parseULL t
  else none

/-- Embeds the `/proc/meminfo` line loop: the early `return` on the first
successful parse makes scanning stop there. -/
def memScan : List String → Option Nat
  | [] => none
  | l :: ls =>
    match memLineValue l with
    | some v => some (v / 1024)
    | none => memScan ls

/-- Embeds `collectMemoryInfo`. -/
def collectMemoryInfo (env : MemEnv) : MemoryInfo :=
  match env.sysinfo with
  | none => {}
  | some d =>
    let base : MemoryInfo :=
      { totalMB := bytesToMB (mul64 d.totalram d.memUnit)
        freeMB := bytesToMB (mul64 d.freeram d.memUnit)
        availableMB := bytesToMB (mul64 (add64 d.freeram d.bufferram) d.memUnit)
        swapTotalMB := bytesToMB (mul64 d.totalswap d.memUnit)
        swapFreeMB := bytesToMB (mul64 d.freeswap d.memUnit) }
    match memScan env.meminfo with
    | some v => { base with availableMB := v }
    | none => base

/-! ### OS probe -/

/-- Result fields of the `uname` call. -/
structure UnameData where
  release : String
  machine : String
  nodename : String

/-- Environment of `collectOsInfo`. -/
structure OsEnv where
  uname : Option UnameData
  osRelease : List String

/-- Embeds one iteration of the `/etc/os-release` line loop (key not
trimmed, one layer of surrounding double quotes stripped, last key wins). -/
def osStep (info : OsInfo) (line : String) : OsInfo :=
  match findCharSplit '=' line with
  | none => info
  | some kv =>
    let vs := kv.2.toList
    let value : String :=
      if vs ≠ [] ∧ vs.head? = some (Char.ofNat 34) ∧ vs.getLast? = some (Char.ofNat 34) then
        ⟨(vs.drop 1).dropLast⟩
      else kv.2
    if kv.1 = "PRETTY_NAME" then { info with distro := value }
    else if kv.1 = "VERSION_ID" then { info with version := value }
    else info

/-- Embeds `collectOsInfo`. -/
def collectOsInfo (env : OsEnv) : OsInfo :=
  let info : OsInfo :=
    match env.uname with
    | some u => { kernel := u.release, architecture := u.machine, hostname := u.nodename }
    | none => {}
  env.osRelease.foldl osStep info

/-! ### Disk probe -/

/-- Fields of the `statvfs` result used by the disk probe. -/
structure StatVfs where
  frsize : Nat
  blocks : Nat
  bavail : Nat

/-- Environment of `collectDiskInfo`: the lines of `/proc/mounts` (`none`
when the file cannot be opened) and the per-mount-point `statvfs` oracle
(`none` models a failing call). -/
structure DiskEnv where
  mounts : Option (List String)
  statvfs : String → Option StatVfs

/-- Embeds `mountDepth`. -/
def mountDepth (mp : String) : Nat :=
  if mp = "/" then 0 else (mp.toList.filter fun c => c = '/').length

/-- The fixed allow-list of `isUsefulMountPoint`. -/
def allowedExact : List String :=
  ["/", "/home", "/boot", "/boot/efi", "/var", "/opt", "/mnt", "/media", "/srv"]

/-- Embeds `isUsefulMountPoint`. -/
def isUsefulMountPoint (mp : String) : Bool :=
  decide (mp ∈ allowedExact)

/-- The fixed pseudo-filesystem set of `collectDiskInfo`. -/
def pseudoFsTypes : List String :=
  ["proc", "sysfs", "tmpfs", "devtmpfs", "cgroup", "cgroup2", "overlay", "squashfs",
   "devpts", "securityfs", "pstore", "mqueue", "tracefs", "fusectl"]

/-- Embeds the body of the `collectDiskInfo` line loop: `none` means the
line is skipped (a `continue`), `some d` means `d` is recorded and its
mount point inserted into `seen` by the caller. -/
def diskLineStep (stat : String → Option StatVfs) (seen : List String) (line : String) :
    Option DiskInfo :=
  match splitCpp line ' ' with
  | source :: mountPoint :: fsType :: options :: _ =>
    if fsType ∈ pseudoFsTypes ∨ mountPoint ∈ seen then none
    else if ¬ "/dev/".toList.isPrefixOf source.toList then none
    else if containsSub "bind".toList options.toList then none
    else if containsSub "/.".toList mountPoint.toList then none
    else if mountDepth mountPoint > 2 ∧ mountPoint ≠ "/boot/efi" then none
    else if ¬ isUsefulMountPoint mountPoint then none
    else
      match stat mountPoint with
      | none => none
      | some st =>
        some { mountPoint := mountPoint, filesystem := fsType
               totalGB := bytesToGB (mul64 st.blocks st.frsize)
               freeGB := bytesToGB (mul64 st.bavail st.frsize) }
  | _ => none

/-- Embeds the `collectDiskInfo` accumulation loop over the mount table. -/
def collectDiskGo (stat : String → Option StatVfs) (seen : List String) :
    List String → List DiskInfo
  | [] => []
  | l :: ls =>
    match diskLineStep stat seen l with
    | none => collectDiskGo stat seen ls
    | some d => d :: collectDiskGo stat (d.mountPoint :: seen) ls

/-- Comparison used by the final `std::sort` of the disk probe. -/
def diskLe (a b : DiskInfo) : Prop := a.mountPoint ≤ b.mountPoint

instance : DecidableRel diskLe := fun a b =>
  inferInstanceAs (Decidable (a.mountPoint ≤ b.mountPoint))

instance : IsTotal DiskInfo diskLe := ⟨fun a b => le_total a.mountPoint b.mountPoint⟩

instance : IsTrans DiskInfo diskLe := ⟨fun _ _ _ h1 h2 => le_trans h1 h2⟩

/-- Embeds `collectDiskInfo` (the mount points recorded are pairwise
distinct, so sorting by any comparison consistent with `mountPoint` order
yields the unique sorted arrangement that `std::sort` produces). -/
def collectDiskInfo (env : DiskEnv) : List DiskInfo :=
  match env.mounts with
  | none => []
  | some ls => List.insertionSort diskLe (collectDiskGo env.statvfs [] ls)

/-! ### Network probe -/

/-- Address family of one `ifaddrs` entry, as far as the probe inspects it:
an IPv4 address carries the `getnameinfo` resolution result (`none` models
a nonzero return code), anything else is `other`. -/
inductive AddrFam where
  | inet (resolved : Option String)
  | other
  deriving DecidableEq

/-- One entry of the `getifaddrs` list: an interface name and an optional
address (`none` models a null `ifa_addr`).  Entries with a null `ifa_name`
are skipped unconditionally by the code and are not modelled. -/
structure IfEntry where
  name : String
  addr : Option AddrFam
  deriving DecidableEq

/-- Environment of `collectNetworkInfo`: the `getifaddrs` enumeration
(`none` models a failing call) and the raw first lines of the per-interface
`address`, `statistics/rx_bytes` and `statistics/tx_bytes` files. -/
structure NetEnv where
  ifaddrList : Option (List IfEntry)
  macLine : String → Option String
  rxLine : String → Option String
  txLine : String → Option String

/-- The successfully resolved IPv4 text of an entry, when it has one. -/
def resolvedIp (e : IfEntry) : Option String :=
  match e.addr with
  | some (AddrFam.inet r) => r
  | _ => none

/-- Association-list lookup by interface name. -/
def lookupName (nm : String) : List (String × NetworkInfo) → Option NetworkInfo
  | [] => none
  | kv :: rest => if kv.1 = nm then some kv.2 else lookupName nm rest

/-- Association-list update-or-append by interface name, modelling
`std::map::operator[]` followed by in-place mutation (iteration order is
irrelevant because the result is sorted by name afterwards). -/
def upsert (nm : String) (v : NetworkInfo) :
    List (String × NetworkInfo) → List (String × NetworkInfo)
  | [] => [(nm, v)]
  | kv :: rest => if kv.1 = nm then (kv.1, v) :: rest else kv :: upsert nm v rest

/-- Embeds the entry mutation of one `getifaddrs` iteration:
`byName[ifaceName]` yields the existing entry or a default one,
`entry.name` is assigned, and a successfully resolved IPv4 address
overwrites `entry.ipv4`. -/
def netEntry (m : List (String × NetworkInfo)) (e : IfEntry) : NetworkInfo :=
  let base : NetworkInfo :=
    match lookupName e.name m with
    | some x => x
    | none => {}
  let base := { base with name := e.name }
  match resolvedIp e with
  | some h => { base with ipv4 := h }
  | none => base

/-- Embeds one iteration of the `getifaddrs` loop: the mutated entry is
stored back under its interface name (created on first sight). -/
def netStep (m : List (String × NetworkInfo)) (e : IfEntry) : List (String × NetworkInfo) :=
  upsert e.name (netEntry m e) m

/-- Embeds the transmit-counter half of the shared `try` block. -/
def applyTx (ent : NetworkInfo) (tx : String) : NetworkInfo :=
  if tx = "" then ent
  else
    match parseULL tx with
    | none => ent
    | some v => { ent with txBytes := v }

/-- Embeds the shared `try` block around the two `stoull` calls: a throw
while parsing `rx` skips the `tx` assignment as well. -/
def applyCounters (ent : NetworkInfo) (rx tx : String) : NetworkInfo :=
  if rx = "" then applyTx ent tx
  else
    match parseULL rx with
    | none => ent
    | some v => applyTx { ent with rxBytes := v } tx

/-- Embeds the second loop of `collectNetworkInfo`: augment one grouped
entry with the MAC address and the byte counters. -/
def finishEntry (env : NetEnv) (nm : String) (ent : NetworkInfo) : NetworkInfo :=
  let ent := { ent with mac := readFirst (env.macLine nm) }
  applyCounters ent (readFirst (env.rxLine nm)) (readFirst (env.txLine nm))

/-- Comparison used by the final `std::sort` of the network probe. -/
def netLe (a b : NetworkInfo) : Prop := a.name ≤ b.name

instance : DecidableRel netLe := fun a b =>
  inferInstanceAs (Decidable (a.name ≤ b.name))

instance : IsTotal NetworkInfo netLe := ⟨fun a b => le_total a.name b.name⟩

instance : IsTrans NetworkInfo netLe := ⟨fun _ _ _ h1 h2 => le_trans h1 h2⟩

/-- Embeds `collectNetworkInfo`. -/
def collectNetworkInfo (env : NetEnv) : List NetworkInfo :=
  match env.ifaddrList with
  | none => []
  | some es =>
    let m := es.foldl netStep []
    List.insertionSort netLe (m.map fun p => finishEntry env p.1 p.2)

/-! ### GPU probe -/

/-- Environment of `collectGpuInfo`: the first line of
`/sys/class/drm/card<i>/device/vendor` per index (`none` when opening the
file fails; an existing empty file reads as `some ""`). -/
structure GpuEnv where
  vendorFile : Nat → Option String

/-- Embeds `collectGpuInfo`. -/
def collectGpuInfo (env : GpuEnv) : List GpuInfo :=
  let gpus := (List.range 8).filterMap fun i =>
    match env.vendorFile i with
    | none => none
    | some v =>
      some { adapter := "card" ++ toString i ++ " vendor=" ++ trim v, detected := true }
  if gpus = [] then
    [{ adapter := "No GPU details (platform-specific collector needed)", detected := false }]
  else gpus

/-! ### Snapshot assembler -/

/-- Environment of one whole collection cycle. -/
structure Env where
  cpu : CpuEnv
  mem : MemEnv
  os : OsEnv
  disk : DiskEnv
  net : NetEnv
  gpu : GpuEnv

/-- Embeds `collectSystemSnapshot`. -/
def collectSystemSnapshot (env : Env) : SystemSnapshot :=
  { cpu := collectCpuInfo env.cpu
    memory := collectMemoryInfo env.mem
    os := collectOsInfo env.os
    disks := collectDiskInfo env.disk
    network := collectNetworkInfo env.net
    gpus := collectGpuInfo env.gpu }

/-! ### Derived specification views -/

/-- Record produced by the first line of the mount table whose mount point
is `mp` and which passes every line-local filter (pseudo-filesystem set,
`/dev/` prefix, bind marker, hidden segment, depth, allow-list) and whose
capacity query succeeds; the duplicate-suppression `seen` check is the one
non-local filter and is deliberately absent here. -/
def firstQual (stat : String → Option StatVfs) (mp : String) : List String → Option DiskInfo
  | [] => none
  | l :: ls =>
    match diskLineStep stat [] l with
    | some d => if d.mountPoint = mp then some d else firstQual stat mp ls
    | none => firstQual stat mp ls

/-- Last successfully resolved IPv4 text for interface `nm` in enumeration
order — the value the probe's overwriting assignment retains. -/
def lastIpv4 (nm : String) : List IfEntry → Option String
  | [] => none
  | e :: es =>
    match lastIpv4 nm es with
    | some h => some h
    | none => if e.name = nm then resolvedIp e else none

/-- Invariant of the interface-grouping map: keys are distinct, each entry
carries its own key as `name`, and the fields only the second loop touches
(`mac`, counters) are still at their defaults. -/
def NetInv (m : List (String × NetworkInfo)) : Prop :=
  (m.map Prod.fst).Nodup ∧
  ∀ p ∈ m, p.2.name = p.1 ∧ p.2.mac = "" ∧ p.2.rxBytes = 0 ∧ p.2.txBytes = 0

/-- The `ipv4` field stored for `nm` in the grouping map (empty when the
name is absent). -/
def ipv4Of (m : List (String × NetworkInfo)) (nm : String) : String :=
  match lookupName nm m with
  | some x => x.ipv4
  | none => ""

/-- First successfully resolved IPv4 text for interface `nm` in enumeration
order — the value the claim "first IPv4 address wins" predicts. -/
def firstIpv4 (nm : String) : List IfEntry → Option String
  | [] => none
  | e :: es =>
    if e.name = nm then
      match resolvedIp e with
      | some h => some h
      | none => firstIpv4 nm es
    else firstIpv4 nm es

/-! ### Concrete inputs for counterexamples and witnesses -/

/-- Mount table in which mount point `/home` appears twice: the first
occurrence is a pseudo-filesystem line, the second a real device line. -/
def c2lines : List String :=
  ["tmpfs /home tmpfs rw 0 0", "/dev/sda1 /home ext4 rw 0 0"]

/-- Capacity oracle reporting 2 GiB total and 1 GiB available (1024-byte
fragments) for every mount point. -/
def c2stat : String → Option StatVfs := fun _ => some ⟨1024, 2097152, 1048576⟩

/-- Disk environment for the C2 counterexample. -/
def c2env : DiskEnv := ⟨some c2lines, c2stat⟩

/-- Mount table in which the (allow-list-excluded) mount point `/data`
appears twice on otherwise eligible lines. -/
def c2envB : DiskEnv :=
  ⟨some ["/dev/sda1 /data ext4 rw 0 0", "/dev/sdb1 /data ext4 rw 0 0"], c2stat⟩

/-- CPU environment whose `cpu cores` key occurs twice, first parsing as
`0`, then as `4`. -/
def c5env : CpuEnv := ⟨0, some ["cpu cores\t: 0", "cpu cores\t: 4"]⟩

/-- CPU environment holding only the first of the two `cpu cores` lines of
`c5env`. -/
def c5envFirst : CpuEnv := ⟨0, some ["cpu cores\t: 0"]⟩

/-- Enumeration in which interface `eth0` reports two IPv4 addresses, both
resolving successfully. -/
def c6entries : List IfEntry :=
  [⟨"eth0", some (AddrFam.inet (some "10.0.0.1"))⟩,
   ⟨"eth0", some (AddrFam.inet (some "10.0.0.2"))⟩]

/-- Network environment for the C6 counterexample (no sysfs files). -/
def c6env : NetEnv := ⟨some c6entries, fun _ => none, fun _ => none, fun _ => none⟩

/-- Environment in which every OS source is absent or failing. -/
def c1env : Env :=
  { cpu := ⟨0, none⟩
    mem := ⟨none, []⟩
    os := ⟨none, []⟩
    disk := ⟨none, fun _ => none⟩
    net := ⟨none, fun _ => none, fun _ => none, fun _ => none⟩
    gpu := ⟨fun _ => none⟩ }

/-- Memory environment with a working `sysinfo` call and a parsable
`MemAvailable:` line. -/
def c4wEnv : MemEnv :=
  ⟨some ⟨1, 1073741824, 0, 0, 0, 0⟩, ["MemTotal: 2048 kB", "MemAvailable:  3072 kB"]⟩

/-- Disk environment with one qualifying root mount line. -/
def c3wEnv : DiskEnv := ⟨some ["/dev/sda1 / ext4 rw 0 0"], c2stat⟩

/-- Disk environment whose only qualifying mount has less than 1 GiB of
capacity. -/
def c10wEnv : DiskEnv :=
  ⟨some ["/dev/sda1 / ext4 rw 0 0"], fun _ => some ⟨512, 1000, 500⟩⟩

/-- Network environment in which `eth0` appears twice without a usable
address and its sysfs files are absent or unparsable. -/
def c7wEnv : NetEnv :=
  ⟨some [⟨"eth0", none⟩, ⟨"eth0", some AddrFam.other⟩],
   fun _ => none, fun _ => some "  ", fun _ => some "junk"⟩

/-- GPU environment with no vendor files at all. -/
def c8wEnv : GpuEnv := ⟨fun _ => none⟩

/-- CPU environment for the C5 amended-claim witness: `physicalCores` is
already nonzero before a conflicting `cpu cores` line arrives. -/
def c5wLines : List String := ["cpu cores\t: 7"]

/-! ## Supporting lemmas -/

lemma memScan_eq (ls : List String) :
    memScan ls = (ls.findSome? memLineValue).map (· / 1024) := by
  induction ls with
  | nil => rfl
  | cons l ls ih =>
    unfold memScan
    cases h : memLineValue l <;> simp [List.findSome?_cons, h, ih]

/-! ## Claim C4 -/

/-- C4: with a successful `sysinfo` call, if some line of the secondary
memory-statistics source begins with `MemAvailable:` and has a token that
parses as an unsigned integer `k` (the first such line, with its first such
token), then `availableMB` is `k / 1024`; otherwise `availableMB` keeps the
primary `(free + buffer) * unit` estimate converted to MB. -/
theorem c4_mem_available (env : MemEnv) (data : SysinfoData) (h : env.sysinfo = some data) :
    (∀ k, env.meminfo.findSome? memLineValue = some k →
      (collectMemoryInfo env).availableMB = k / 1024) ∧
    (env.meminfo.findSome? memLineValue = none →
      (collectMemoryInfo env).availableMB
        = bytesToMB (mul64 (add64 data.freeram data.bufferram) data.memUnit)) := by
  constructor
  · intro k hk
    simp [collectMemoryInfo, h, memScan_eq, hk]
  · intro hk
    simp [collectMemoryInfo, h, memScan_eq, hk]

/-- Witness for C4 at a concrete environment: the `MemAvailable:  3072 kB`
line overrides the primary estimate, giving `3072 / 1024 = 3` MB. -/
theorem c4_mem_available_witness : (collectMemoryInfo c4wEnv).availableMB = 3 := by
  have h := (c4_mem_available c4wEnv ⟨1, 1073741824, 0, 0, 0, 0⟩ rfl).1 3072 (by decide)
  simpa using h

lemma diskLineStep_spec {stat : String → Option StatVfs} {seen : List String} {line : String}
    {d : DiskInfo} (hx : diskLineStep stat seen line = some d) :
    d.mountPoint ∉ seen ∧ isUsefulMountPoint d.mountPoint = true ∧
    ∃ st, stat d.mountPoint = some st ∧
      d.totalGB = bytesToGB (mul64 st.blocks st.frsize) ∧
      d.freeGB = bytesToGB (mul64 st.bavail st.frsize) := by
  unfold diskLineStep at hx
  repeat' split at hx
  all_goals try exact Option.noConfusion hx
  injection hx with h
  subst h
  simp_all

lemma diskLineStep_mono {stat : String → Option StatVfs} {s1 : List String} {line : String}
    {d : DiskInfo} (hx : diskLineStep stat s1 line = some d) (s2 : List String)
    (hd : d.mountPoint ∉ s2) : diskLineStep stat s2 line = some d := by
  unfold diskLineStep at hx ⊢
  repeat' split at hx
  all_goals try exact Option.noConfusion hx
  injection hx with h
  subst h
  simp_all
  all_goals assumption

lemma collectDiskGo_sub {stat : String → Option StatVfs} {seen ls : List String}
    {d : DiskInfo} (hd : d ∈ collectDiskGo stat seen ls) :
    ∃ s2 l, diskLineStep stat s2 l = some d := by
  induction ls generalizing seen with
  | nil => cases hd
  | cons l ls ih =>
    unfold collectDiskGo at hd
    cases h : diskLineStep stat seen l with
    | none =>
      simp only [h] at hd
      exact ih hd
    | some d0 =>
      simp only [h] at hd
      rcases List.mem_cons.mp hd with rfl | hmem
      · exact ⟨seen, l, h⟩
      · exact ih hmem

lemma collectDiskGo_not_mem_seen {stat : String → Option StatVfs} {seen ls : List String}
    {d : DiskInfo} (hd : d ∈ collectDiskGo stat seen ls) : d.mountPoint ∉ seen := by
  induction ls generalizing seen with
  | nil => cases hd
  | cons l ls ih =>
    unfold collectDiskGo at hd
    cases h : diskLineStep stat seen l with
    | none =>
      simp only [h] at hd
      exact ih hd
    | some d0 =>
      simp only [h] at hd
      rcases List.mem_cons.mp hd with rfl | hmem
      · exact (diskLineStep_spec h).1
      · intro hs
        exact ih hmem (List.mem_cons_of_mem _ hs)

lemma collectDiskGo_nodup {stat : String → Option StatVfs} {seen ls : List String} :
    ((collectDiskGo stat seen ls).map DiskInfo.mountPoint).Nodup := by
  induction ls generalizing seen with
  | nil => exact List.nodup_nil
  | cons l ls ih =>
    unfold collectDiskGo
    cases h : diskLineStep stat seen l with
    | none => exact ih
    | some d0 =>
      simp only [List.map_cons, List.nodup_cons]
      refine ⟨?_, ih⟩
      intro hmem
      obtain ⟨d1, hd1, heq⟩ := List.exists_of_mem_map hmem
      have := collectDiskGo_not_mem_seen hd1
      rw [heq] at this
      exact this (List.mem_cons_self _ _)

lemma collectDiskGo_firstQual {stat : String → Option StatVfs} {seen ls : List String}
    {d : DiskInfo} (hd : d ∈ collectDiskGo stat seen ls) :
    firstQual stat d.mountPoint ls = some d := by
  induction ls generalizing seen with
  | nil => cases hd
  | cons l ls ih =>
    unfold collectDiskGo at hd
    unfold firstQual
    cases h : diskLineStep stat seen l with
    | none =>
      simp only [h] at hd
      have hnotseen : d.mountPoint ∉ seen := collectDiskGo_not_mem_seen hd
      cases h0 : diskLineStep stat [] l with
      | none =>
        simp only [h0]
        exact ih hd
      | some d0 =>
        have hd0seen : d0.mountPoint ∈ seen := by
          by_contra hc
          rw [diskLineStep_mono h0 seen hc] at h
          exact Option.noConfusion h
        have hne : d0.mountPoint ≠ d.mountPoint := by
          intro he
          exact hnotseen (he ▸ hd0seen)
        simp only [h0, if_neg hne]
        exact ih hd
    | some d0 =>
      simp only [h] at hd
      have h0 : diskLineStep stat [] l = some d0 :=
        diskLineStep_mono h [] (List.not_mem_nil _)
      rcases List.mem_cons.mp hd with rfl | hmem
      · simp only [h0, if_pos]
      · have hnotseen : d.mountPoint ∉ d0.mountPoint :: seen :=
          collectDiskGo_not_mem_seen hmem
        have hne : d0.mountPoint ≠ d.mountPoint := by
          intro he
          exact hnotseen (he ▸ List.mem_cons_self _ _)
        simp only [h0, if_neg hne]
        exact ih hmem

lemma collectDiskInfo_mem {env : DiskEnv} {ls : List String} (h : env.mounts = some ls)
    {d : DiskInfo} (hd : d ∈ collectDiskInfo env) :
    d ∈ collectDiskGo env.statvfs [] ls := by
  unfold collectDiskInfo at hd
  rw [h] at hd
  exact (List.perm_insertionSort diskLe _).mem_iff.mp hd

/-! ## Claim C1 -/

/-- C1: every probe is a total function of its environment (in this
embedding each probe is a total Lean function, mirroring the code's
catch-all error handling), `collectSystemSnapshot` always assembles the six
probe results into a complete `SystemSnapshot`, and an absent or failing
source leaves the corresponding record (or sequence) at its documented
default. -/
theorem c1_probes_total (env : Env) :
    collectSystemSnapshot env =
      { cpu := collectCpuInfo env.cpu
        memory := collectMemoryInfo env.mem
        os := collectOsInfo env.os
        disks := collectDiskInfo env.disk
        network := collectNetworkInfo env.net
        gpus := collectGpuInfo env.gpu } ∧
    (env.cpu.cpuinfo = none →
      collectCpuInfo env.cpu = { logicalThreads := env.cpu.hardwareConcurrency }) ∧
    (env.mem.sysinfo = none → collectMemoryInfo env.mem = {}) ∧
    (env.os.uname = none → env.os.osRelease = [] → collectOsInfo env.os = {}) ∧
    (env.disk.mounts = none → collectDiskInfo env.disk = []) ∧
    (env.net.ifaddrList = none → collectNetworkInfo env.net = []) ∧
    ((∀ i, env.gpu.vendorFile i = none) →
      collectGpuInfo env.gpu =
        [{ adapter := "No GPU details (platform-specific collector needed)",
           detected := false }]) := by
  refine ⟨rfl, ?_, ?_, ?_, ?_, ?_, ?_⟩
  · intro h; simp [collectCpuInfo, h]
  · intro h; simp [collectMemoryInfo, h]
  · intro h1 h2; simp [collectOsInfo, h1, h2]
  · intro h; simp [collectDiskInfo, h]
  · intro h; simp [collectNetworkInfo, h]
  · intro h
    simp only [collectGpuInfo]
    have : (List.range 8).filterMap (fun i =>
        match env.gpu.vendorFile i with
        | none => none
        | some v =>
          some { adapter := "card" ++ toString i ++ " vendor=" ++ trim v,
                 detected := true, : GpuInfo }) = [] := by
      rw [List.filterMap_eq_nil_iff]
      intro i _
      rw [h i]
    rw [this]
    rfl

/-- Witness for C1: on the environment where every source is absent or
failing, the snapshot is the fully defaulted one (with the guaranteed GPU
placeholder). -/
theorem c1_probes_total_witness :
    collectSystemSnapshot c1env =
      { cpu := { logicalThreads := 0 }
        memory := {}
        os := {}
        disks := []
        network := []
        gpus := [{ adapter := "No GPU details (platform-specific collector needed)",
                   detected := false }] } := by
  obtain ⟨hasm, hcpu, hmem, hos, hdisk, hnet, hgpu⟩ := c1_probes_total c1env
  rw [hasm, hcpu rfl, hmem rfl, hos rfl rfl, hdisk rfl, hnet rfl, hgpu fun i => rfl]
  rfl

/-! ## Claim C8 -/

/-- C8: a scan finding no vendor descriptor file yields exactly the one
placeholder record with `detected = false`; the GPU probe's result is never
empty; and every record other than the placeholder (that is, every record
built from a found vendor file) has `detected = true`. -/
theorem c8_gpu_fallback (env : GpuEnv) :
    ((∀ i, i < 8 → env.vendorFile i = none) →
      collectGpuInfo env =
        [{ adapter := "No GPU details (platform-specific collector needed)",
           detected := false }]) ∧
    collectGpuInfo env ≠ [] ∧
    (∀ g ∈ collectGpuInfo env, g.detected = true ∨
      g = { adapter := "No GPU details (platform-specific collector needed)",
            detected := false }) := by
  refine ⟨?_, ?_, ?_⟩
  · intro h
    simp only [collectGpuInfo]
    have : (List.range 8).filterMap (fun i =>
        match env.vendorFile i with
        | none => none
        | some v =>
          some { adapter := "card" ++ toString i ++ " vendor=" ++ trim v,
                 detected := true, : GpuInfo }) = [] := by
      rw [List.filterMap_eq_nil_iff]
      intro i hi
      rw [h i (List.mem_range.mp hi)]
    rw [this]
    rfl
  · simp only [collectGpuInfo]
    split
    · simp
    · assumption
  · intro g hg
    simp only [collectGpuInfo] at hg
    split at hg
    · right
      simpa using hg
    · left
      obtain ⟨i, hi, hmem⟩ := List.mem_filterMap.mp hg
      revert hmem
      cases env.vendorFile i <;> intro hmem
      · exact absurd hmem (by simp)
      · cases hmem with
        | refl => rfl

/-- Witness for C8: with no vendor file at any index, the result is exactly
the placeholder singleton. -/
theorem c8_gpu_fallback_witness :
    collectGpuInfo c8wEnv =
      [{ adapter := "No GPU details (platform-specific collector needed)",
         detected := false }] :=
  (c8_gpu_fallback c8wEnv).1 fun _ _ => rfl

/-! ## Claim C2 -/

/-- Counterexample to C2 as stated.  In `c2env` the mount point `/home`
appears on two lines; the first occurrence (`tmpfs /home tmpfs rw 0 0`) is
filtered out (pseudo filesystem, non-`/dev/` source) without being marked
seen, so the single output entry takes its fields from the *second*
occurrence: its `filesystem` is `ext4`, not the first occurrence's `tmpfs`.
In `c2envB` the mount point `/data` appears on two lines yet the output
contains no entry at all, refuting "exactly one". -/
theorem c2_first_occurrence_cex :
    collectDiskInfo c2env =
      [{ mountPoint := "/home", filesystem := "ext4", totalGB := 2, freeGB := 1 }] ∧
    ("ext4" : String) ≠ "tmpfs" ∧
    collectDiskInfo c2envB = [] := by
  refine ⟨by decide, by decide, by decide⟩

/-- C2 amended: the output never contains two entries for the same mount
point, and the entry for a mount point (when present) takes its fields from
the first occurrence of that mount point that passes all line-local filters
and whose capacity query succeeds — not from the first occurrence
outright. -/
theorem c2_dedup_first_qualifying (env : DiskEnv) (ls : List String)
    (h : env.mounts = some ls) :
    ((collectDiskInfo env).map DiskInfo.mountPoint).Nodup ∧
    ∀ d ∈ collectDiskInfo env, firstQual env.statvfs d.mountPoint ls = some d := by
  constructor
  · unfold collectDiskInfo
    rw [h]
    exact ((List.perm_insertionSort diskLe _).map DiskInfo.mountPoint).nodup_iff.mpr
      collectDiskGo_nodup
  · intro d hd
    exact collectDiskGo_firstQual (collectDiskInfo_mem h hd)

/-- Witness for the amended C2 on `c2env`: the `/home` entry is the record
built from the second (first qualifying) line. -/
theorem c2_dedup_first_qualifying_witness :
    firstQual c2stat "/home" c2lines =
      some { mountPoint := "/home", filesystem := "ext4", totalGB := 2, freeGB := 1 } :=
  (c2_dedup_first_qualifying c2env c2lines rfl).2
    { mountPoint := "/home", filesystem := "ext4", totalGB := 2, freeGB := 1 } (by decide)

/-! ## Claim C3 -/

/-- C3: every record the disk probe outputs has a mount point in the fixed
allow-list; since a line can only produce the record whose mount point is
its own second field, a line with a mount point outside the allow-list
produces no output entry. -/
theorem c3_allowlist (env : DiskEnv) :
    ∀ d ∈ collectDiskInfo env, d.mountPoint ∈ allowedExact := by
  intro d hd
  unfold collectDiskInfo at hd
  cases h : env.mounts with
  | none =>
    rw [h] at hd
    cases hd
  | some ls =>
    rw [h] at hd
    have hd2 : d ∈ collectDiskGo env.statvfs [] ls :=
      (List.perm_insertionSort diskLe _).mem_iff.mp hd
    obtain ⟨s2, l, hl⟩ := collectDiskGo_sub hd2
    have huse := (diskLineStep_spec hl).2.1
    unfold isUsefulMountPoint at huse
    exact of_decide_eq_true huse

/-- Witness for C3: the root entry produced by a one-line mount table has
its mount point in the allow-list. -/
theorem c3_allowlist_witness : ("/" : String) ∈ allowedExact :=
  c3_allowlist c3wEnv { mountPoint := "/", filesystem := "ext4", totalGB := 2, freeGB := 1 }
    (by decide)

/-! ## Claim C10 -/

/-- C10: `bytesToGB` truncates toward zero, so any byte count below
`2 ^ 30` converts to `0` GB; consequently a recorded mount whose total or
available capacity product is below 1 GiB reports `totalGB` or `freeGB` as
`0`, and a parsed `MemAvailable:` value below 1024 kB yields
`availableMB = 0`. -/
theorem c10_truncation :
    (∀ b, b < 2 ^ 30 → bytesToGB b = 0) ∧
    (∀ (env : DiskEnv) (d : DiskInfo) (st : StatVfs), d ∈ collectDiskInfo env →
      env.statvfs d.mountPoint = some st →
      (mul64 st.blocks st.frsize < 2 ^ 30 → d.totalGB = 0) ∧
      (mul64 st.bavail st.frsize < 2 ^ 30 → d.freeGB = 0)) ∧
    (∀ (env : MemEnv) (data : SysinfoData) (k : Nat), env.sysinfo = some data →
      env.meminfo.findSome? memLineValue = some k → k < 1024 →
      (collectMemoryInfo env).availableMB = 0) := by
  have hgb : ∀ b, b < 2 ^ 30 → bytesToGB b = 0 := by
    intro b hb
    have h230 : (2 : Nat) ^ 30 = 1024 * 1024 * 1024 := by norm_num
    rw [h230] at hb
    unfold bytesToGB
    exact Nat.div_eq_of_lt hb
  refine ⟨hgb, ?_, ?_⟩
  · intro env d st hd hst
    cases h : env.mounts with
    | none =>
      unfold collectDiskInfo at hd
      rw [h] at hd
      cases hd
    | some ls =>
      have hd2 := collectDiskInfo_mem h hd
      obtain ⟨s2, l, hl⟩ := collectDiskGo_sub hd2
      obtain ⟨-, -, st0, hst0, ht, hf⟩ := diskLineStep_spec hl
      rw [hst] at hst0
      injection hst0 with he
      subst he
      exact ⟨fun hlt => by rw [ht]; exact hgb _ hlt,
             fun hlt => by rw [hf]; exact hgb _ hlt⟩
  · intro env data k hs hk hlt
    have hav : (collectMemoryInfo env).availableMB = k / 1024 := by
      simp [collectMemoryInfo, hs, memScan_eq, hk]
    rw [hav]
    exact Nat.div_eq_of_lt hlt

/-- Witness for C10: a 5-byte count converts to 0 GB; the sub-GiB mount of
`c10wEnv` reports 0 total GB; a 512 kB `MemAvailable:` line yields 0 MB. -/
theorem c10_truncation_witness :
    bytesToGB 5 = 0 ∧
    ({ mountPoint := "/", filesystem := "ext4", totalGB := 0, freeGB := 0 } : DiskInfo).totalGB
      = 0 ∧
    (collectMemoryInfo ⟨some ⟨1, 0, 0, 0, 0, 0⟩, ["MemAvailable: 512 kB"]⟩).availableMB = 0 := by
  refine ⟨c10_truncation.1 5 (by decide), ?_, ?_⟩
  · exact (c10_truncation.2.1 c10wEnv
      { mountPoint := "/", filesystem := "ext4", totalGB := 0, freeGB := 0 }
      ⟨512, 1000, 500⟩ (by decide) rfl).1 (by decide)
  · exact c10_truncation.2.2 ⟨some ⟨1, 0, 0, 0, 0, 0⟩, ["MemAvailable: 512 kB"]⟩
      ⟨1, 0, 0, 0, 0, 0⟩ 512 rfl (by decide) (by decide)

/-! ## Claim C5 -/

lemma cpuStep_cores {info : CpuInfo} (l : String) (h : info.physicalCores ≠ 0) :
    (cpuStep info l).physicalCores = info.physicalCores := by
  unfold cpuStep
  split
  · rfl
  · dsimp only
    repeat' split
    all_goals simp_all

lemma cpuStep_mhz {info : CpuInfo} (l : String) (h : 0 < info.currentMHz) :
    (cpuStep info l).currentMHz = info.currentMHz := by
  unfold cpuStep
  split
  · rfl
  · dsimp only
    repeat' split
    all_goals try rfl
    all_goals try simp_all
    all_goals exfalso
    all_goals linarith

lemma cpuStep_model {info : CpuInfo} (l : String) (h : info.model ≠ "") :
    (cpuStep info l).model = info.model := by
  unfold cpuStep
  split
  · rfl
  · dsimp only
    repeat' split
    all_goals simp_all

/-- Counterexample to C5 as stated.  In `c5env` the first `cpu cores` line
parses as `0`, so `physicalCores` is assigned `0` by the first matching
line (as `c5envFirst` shows); yet the later `cpu cores` line overwrites it
with `4`, because the guard tests the value (`physicalCores == 0`), not
whether the key was already seen. -/
theorem c5_first_wins_cex :
    (collectCpuInfo c5env).physicalCores = 4 ∧
    (collectCpuInfo c5envFirst).physicalCores = 0 ∧
    (4 : Nat) ≠ 0 :=
  ⟨by decide, by decide, by decide⟩

/-- C5 amended: the `cpu cores` / `cpu MHz` / `model name` guards are
value-based, not occurrence-based: no later line can change
`physicalCores` once it is nonzero, `currentMHz` once it is positive, or
`model` once it is non-empty (hence the first non-empty `model name` value
and the first nonzero `cpu cores` / positive `cpu MHz` value win); but a
first occurrence that leaves the field at `0` (or a non-positive MHz or an
empty model) does not block later occurrences. -/
theorem c5_no_overwrite_once_set (info : CpuInfo) (lines : List String) :
    (info.physicalCores ≠ 0 →
      (lines.foldl cpuStep info).physicalCores = info.physicalCores) ∧
    (0 < info.currentMHz → (lines.foldl cpuStep info).currentMHz = info.currentMHz) ∧
    (info.model ≠ "" → (lines.foldl cpuStep info).model = info.model) := by
  induction lines generalizing info with
  | nil => exact ⟨fun _ => rfl, fun _ => rfl, fun _ => rfl⟩
  | cons l ls ih =>
    refine ⟨?_, ?_, ?_⟩
    · intro h
      rw [List.foldl_cons]
      have hc := cpuStep_cores l h
      rw [(ih (cpuStep info l)).1 (by rw [hc]; exact h), hc]
    · intro h
      rw [List.foldl_cons]
      have hc := cpuStep_mhz l h
      rw [(ih (cpuStep info l)).2.1 (by rw [hc]; exact h), hc]
    · intro h
      rw [List.foldl_cons]
      have hc := cpuStep_model l h
      rw [(ih (cpuStep info l)).2.2 (by rw [hc]; exact h), hc]

/-- Witness for the amended C5: against a record whose fields are already
set (nonzero cores, positive MHz, non-empty model), a later `cpu cores`
line changes nothing. -/
theorem c5_no_overwrite_once_set_witness :
    (c5wLines.foldl cpuStep { model := "x", physicalCores := 3, currentMHz := 5 }).physicalCores
      = 3 ∧
    (c5wLines.foldl cpuStep { model := "x", physicalCores := 3, currentMHz := 5 }).currentMHz
      = 5 ∧
    (c5wLines.foldl cpuStep { model := "x", physicalCores := 3, currentMHz := 5 }).model
      = "x" :=
  ⟨(c5_no_overwrite_once_set { model := "x", physicalCores := 3, currentMHz := 5 } c5wLines).1
      (by decide),
   (c5_no_overwrite_once_set { model := "x", physicalCores := 3, currentMHz := 5 } c5wLines).2.1
      (by decide),
   (c5_no_overwrite_once_set { model := "x", physicalCores := 3, currentMHz := 5 } c5wLines).2.2
      (by decide)⟩

/-! ## Network-probe lemmas -/

lemma lookupName_upsert (nm k : String) (v : NetworkInfo) (m : List (String × NetworkInfo)) :
    lookupName nm (upsert k v m) = if k = nm then some v else lookupName nm m := by
  induction m with
  | nil =>
    simp [upsert, lookupName]
  | cons kv rest ih =>
    simp only [upsert, lookupName]
    split_ifs <;> simp_all [lookupName]

lemma mem_upsert {p : String × NetworkInfo} {k : String} {v : NetworkInfo}
    {m : List (String × NetworkInfo)} (h : p ∈ upsert k v m) : p ∈ m ∨ p = (k, v) := by
  induction m with
  | nil =>
    simp only [upsert, List.mem_singleton] at h
    right
    exact h
  | cons kv rest ih =>
    simp only [upsert] at h
    by_cases h1 : kv.1 = k
    · rw [if_pos h1] at h
      rcases List.mem_cons.mp h with rfl | hm
      · right
        rw [h1]
      · left
        exact List.mem_cons_of_mem _ hm
    · rw [if_neg h1] at h
      rcases List.mem_cons.mp h with rfl | hm
      · left
        exact List.mem_cons_self _ _
      · rcases ih hm with hm2 | heq
        · left
          exact List.mem_cons_of_mem _ hm2
        · right
          exact heq

lemma lookupName_mem {nm : String} {ent : NetworkInfo} {m : List (String × NetworkInfo)}
    (h : lookupName nm m = some ent) : (nm, ent) ∈ m := by
  induction m with
  | nil => cases h
  | cons kv rest ih =>
    unfold lookupName at h
    by_cases h1 : kv.1 = nm
    · rw [if_pos h1] at h
      injection h with h2
      have : (nm, ent) = kv := by rw [← h1, ← h2]
      rw [this]
      exact List.mem_cons_self _ _
    · rw [if_neg h1] at h
      exact List.mem_cons_of_mem _ (ih h)

lemma mem_lookupName {nm : String} {ent : NetworkInfo} {m : List (String × NetworkInfo)}
    (hnd : (m.map Prod.fst).Nodup) (h : (nm, ent) ∈ m) : lookupName nm m = some ent := by
  induction m with
  | nil => cases h
  | cons kv rest ih =>
    simp only [List.map_cons, List.nodup_cons] at hnd
    unfold lookupName
    rcases List.mem_cons.mp h with heq | hm
    · rw [← heq]
      simp
    · have h1 : kv.1 ≠ nm := by
        intro hh
        exact hnd.1 (hh ▸ List.mem_map.mpr ⟨(nm, ent), hm, rfl⟩)
      rw [if_neg h1]
      exact ih hnd.2 hm

lemma keys_upsert (k : String) (v : NetworkInfo) (m : List (String × NetworkInfo))
    (a : String) :
    a ∈ (upsert k v m).map Prod.fst ↔ a ∈ m.map Prod.fst ∨ a = k := by
  induction m with
  | nil => simp [upsert]
  | cons kv rest ih =>
    simp only [upsert]
    split_ifs with h1 <;> simp_all <;> tauto

lemma keys_upsert_nodup {k : String} {v : NetworkInfo} {m : List (String × NetworkInfo)}
    (h : (m.map Prod.fst).Nodup) : ((upsert k v m).map Prod.fst).Nodup := by
  induction m with
  | nil => simp [upsert]
  | cons kv rest ih =>
    simp only [List.map_cons, List.nodup_cons] at h
    simp only [upsert]
    split_ifs with h1
    · simp only [List.map_cons, List.nodup_cons]
      exact ⟨h.1, h.2⟩
    · simp only [List.map_cons, List.nodup_cons]
      refine ⟨?_, ih h.2⟩
      intro hmem
      rcases (keys_upsert k v rest kv.1).mp hmem with hm | heq
      · exact h.1 hm
      · exact h1 heq

lemma netEntry_name (m : List (String × NetworkInfo)) (e : IfEntry) :
    (netEntry m e).name = e.name := by
  unfold netEntry
  cases hres : resolvedIp e <;> simp [hres]

lemma netEntry_untouched {m : List (String × NetworkInfo)} (e : IfEntry) (h : NetInv m) :
    (netEntry m e).mac = "" ∧ (netEntry m e).rxBytes = 0 ∧ (netEntry m e).txBytes = 0 := by
  unfold netEntry
  cases hlk : lookupName e.name m with
  | none => cases hres : resolvedIp e <;> simp [hres]
  | some x =>
    have hx := h.2 (e.name, x) (lookupName_mem hlk)
    simp only at hx
    cases hres : resolvedIp e <;>
      simp [hres, hx.2.1, hx.2.2.1, hx.2.2.2]

lemma netEntry_ipv4 (m : List (String × NetworkInfo)) (e : IfEntry) :
    (netEntry m e).ipv4 =
      match resolvedIp e with
      | some h => h
      | none =>
        match lookupName e.name m with
        | some x => x.ipv4
        | none => "" := by
  unfold netEntry
  cases hres : resolvedIp e <;> cases hlk : lookupName e.name m <;> simp [hres, hlk]

lemma netStep_inv {m : List (String × NetworkInfo)} (e : IfEntry) (h : NetInv m) :
    NetInv (netStep m e) := by
  refine ⟨keys_upsert_nodup h.1, ?_⟩
  intro p hpm
  rcases mem_upsert hpm with hm | heq
  · exact h.2 p hm
  · subst heq
    obtain ⟨h1, h2, h3⟩ := netEntry_untouched e h
    exact ⟨netEntry_name m e, h1, h2, h3⟩

lemma netInv_foldl {es : List IfEntry} : ∀ {m : List (String × NetworkInfo)},
    NetInv m → NetInv (es.foldl netStep m) := by
  induction es with
  | nil => intro m h; exact h
  | cons e es ih =>
    intro m h
    simp only [List.foldl_cons]
    exact ih (netStep_inv e h)

lemma keys_mono_foldl {es : List IfEntry} : ∀ {m : List (String × NetworkInfo)} {a : String},
    a ∈ m.map Prod.fst → a ∈ (es.foldl netStep m).map Prod.fst := by
  induction es with
  | nil => intro m a h; exact h
  | cons e es ih =>
    intro m a h
    simp only [List.foldl_cons]
    exact ih ((keys_upsert e.name (netEntry m e) m a).mpr (Or.inl h))

lemma keys_foldl_netStep {es : List IfEntry} : ∀ {m : List (String × NetworkInfo)} {nm : String},
    (∃ e ∈ es, e.name = nm) → nm ∈ (es.foldl netStep m).map Prod.fst := by
  induction es with
  | nil => intro m nm h; simp at h
  | cons e es ih =>
    intro m nm hex
    simp only [List.foldl_cons]
    rcases hex with ⟨e0, he0, hname⟩
    rcases List.mem_cons.mp he0 with rfl | hmem
    · subst hname
      exact keys_mono_foldl
        ((keys_upsert e0.name (netEntry m e0) m e0.name).mpr (Or.inr rfl))
    · exact ih ⟨e0, hmem, hname⟩

lemma ipv4Of_netStep (m : List (String × NetworkInfo)) (e : IfEntry) (nm : String) :
    ipv4Of (netStep m e) nm =
      if e.name = nm then
        match resolvedIp e with
        | some h => h
        | none => ipv4Of m nm
      else ipv4Of m nm := by
  by_cases he : e.name = nm
  · subst he
    unfold ipv4Of netStep
    rw [lookupName_upsert, if_pos rfl, if_pos rfl]
    cases hres : resolvedIp e <;> cases hlk : lookupName e.name m <;>
      simp [netEntry_ipv4, hres, hlk]
  · unfold ipv4Of netStep
    rw [lookupName_upsert, if_neg he, if_neg he]

lemma lookupName_foldl_ipv4 {es : List IfEntry} :
    ∀ {m : List (String × NetworkInfo)} {nm : String} {ent : NetworkInfo},
    lookupName nm (es.foldl netStep m) = some ent →
    ent.ipv4 =
      match lastIpv4 nm es with
      | some h => h
      | none => ipv4Of m nm := by
  induction es with
  | nil =>
    intro m nm ent h
    simp only [List.foldl_nil] at h
    simp only [lastIpv4, ipv4Of, h]
  | cons e es ih =>
    intro m nm ent h
    simp only [List.foldl_cons] at h
    have hx := ih h
    rw [ipv4Of_netStep] at hx
    simp only [lastIpv4]
    cases hl : lastIpv4 nm es with
    | some v =>
      simp only [hl] at hx ⊢
      exact hx
    | none =>
      simp only [hl] at hx ⊢
      by_cases he : e.name = nm
      · rw [if_pos he] at hx ⊢
        exact hx
      · simp only [he, if_false] at hx ⊢
        exact hx

lemma lastIpv4_none {nm : String} {es : List IfEntry}
    (h : ∀ e ∈ es, e.name = nm → resolvedIp e = none) : lastIpv4 nm es = none := by
  induction es with
  | nil => rfl
  | cons e es ih =>
    unfold lastIpv4
    rw [ih fun x hx => h x (List.mem_cons_of_mem _ hx)]
    by_cases he : e.name = nm
    · rw [if_pos he, h e (List.mem_cons_self _ _) he]
    · rw [if_neg he]

lemma finishEntry_ipv4 (env : NetEnv) (nm : String) (ent : NetworkInfo) :
    (finishEntry env nm ent).ipv4 = ent.ipv4 := by
  unfold finishEntry applyCounters applyTx
  dsimp only
  repeat' split
  all_goals rfl

lemma finishEntry_name (env : NetEnv) (nm : String) (ent : NetworkInfo) :
    (finishEntry env nm ent).name = ent.name := by
  unfold finishEntry applyCounters applyTx
  dsimp only
  repeat' split
  all_goals rfl

lemma applyTx_none {ent : NetworkInfo} {tx : String} (h : parseULL tx = none) :
    applyTx ent tx = ent := by
  unfold applyTx
  split
  · rfl
  · simp only [h]

lemma applyCounters_none {ent : NetworkInfo} {rx tx : String} (h1 : parseULL rx = none)
    (h2 : parseULL tx = none) : applyCounters ent rx tx = ent := by
  unfold applyCounters
  split
  · exact applyTx_none h2
  · simp only [h1]

lemma collectNetworkInfo_mem {env : NetEnv} {es : List IfEntry}
    (h : env.ifaddrList = some es) {n : NetworkInfo} (hn : n ∈ collectNetworkInfo env) :
    ∃ p ∈ es.foldl netStep [], n = finishEntry env p.1 p.2 := by
  unfold collectNetworkInfo at hn
  rw [h] at hn
  have hm := (List.perm_insertionSort netLe _).mem_iff.mp hn
  obtain ⟨p, hp, heq⟩ := List.mem_map.mp hm
  exact ⟨p, hp, heq.symm⟩

/-! ## Claim C6 -/

/-- Counterexample to C6 as stated: `eth0` reports the IPv4 addresses
`10.0.0.1` then `10.0.0.2` in enumeration order; the claim predicts the
first (`10.0.0.1`), but the output retains the last one, because each
resolved address overwrites `entry.ipv4`. -/
theorem c6_first_ipv4_cex :
    firstIpv4 "eth0" c6entries = some "10.0.0.1" ∧
    (collectNetworkInfo c6env).map NetworkInfo.ipv4 = ["10.0.0.2"] ∧
    ("10.0.0.2" : String) ≠ "10.0.0.1" :=
  ⟨by decide, by decide, by decide⟩

/-- C6 amended: when an interface reports several IPv4 addresses, the
*last* successfully resolved IPv4 address in enumeration order is retained
(each successful resolution overwrites the field); an interface with no
successfully resolved IPv4 address has an empty `ipv4`. -/
theorem c6_ipv4_last_wins (env : NetEnv) (es : List IfEntry)
    (h : env.ifaddrList = some es) :
    ∀ n ∈ collectNetworkInfo env, n.ipv4 = (lastIpv4 n.name es).getD "" := by
  intro n hn
  obtain ⟨p, hp, heq⟩ := collectNetworkInfo_mem h hn
  have hinv : NetInv (es.foldl netStep []) := netInv_foldl ⟨List.nodup_nil, by simp⟩
  have hname : p.2.name = p.1 := (hinv.2 p hp).1
  have hlk : lookupName p.1 (es.foldl netStep []) = some p.2 :=
    mem_lookupName hinv.1 hp
  have hip := lookupName_foldl_ipv4 hlk
  rw [heq, finishEntry_ipv4, finishEntry_name, hname]
  cases hl : lastIpv4 p.1 es <;> simp only [hl] at hip <;>
    simp [hip, ipv4Of, lookupName, hl]

/-- Witness for the amended C6 on `c6env`: the single `eth0` entry holds
the last resolved address `10.0.0.2`. -/
theorem c6_ipv4_last_wins_witness :
    ({ name := "eth0", ipv4 := "10.0.0.2" } : NetworkInfo).ipv4 =
      (lastIpv4 "eth0" c6entries).getD "" :=
  c6_ipv4_last_wins c6env c6entries rfl { name := "eth0", ipv4 := "10.0.0.2" } (by decide)

/-! ## Claim C7 -/

/-- C7: an interface name that appears in the enumeration, every one of
whose entries lacks a successfully resolved IPv4 address, and whose
hardware-address file is absent and whose byte-counter contents do not
parse, still yields an output entry — with empty `ipv4`, empty `mac`, and
zero counters. -/
theorem c7_presence_by_name (env : NetEnv) (es : List IfEntry) (nm : String)
    (h : env.ifaddrList = some es)
    (hin : ∃ e ∈ es, e.name = nm)
    (hip : ∀ e ∈ es, e.name = nm → resolvedIp e = none)
    (hmac : env.macLine nm = none)
    (hrx : parseULL (readFirst (env.rxLine nm)) = none)
    (htx : parseULL (readFirst (env.txLine nm)) = none) :
    ({ name := nm } : NetworkInfo) ∈ collectNetworkInfo env := by
  have hinv : NetInv (es.foldl netStep []) := netInv_foldl ⟨List.nodup_nil, by simp⟩
  have hkey : nm ∈ (es.foldl netStep []).map Prod.fst := keys_foldl_netStep hin
  obtain ⟨p, hp, hfst⟩ := List.mem_map.mp hkey
  obtain ⟨k, ent⟩ := p
  simp only at hfst
  have hfields := hinv.2 (k, ent) hp
  simp only at hfields
  have hlk : lookupName nm (es.foldl netStep []) = some ent :=
    mem_lookupName hinv.1 (hfst ▸ hp)
  have hip4 : ent.ipv4 = "" := by
    have hx := lookupName_foldl_ipv4 hlk
    simp only [lastIpv4_none hip] at hx
    simpa [ipv4Of, lookupName] using hx
  have hent : ent = ({ name := nm } : NetworkInfo) := by
    obtain ⟨a, b, c, d, f⟩ := ent
    simp_all
  have hfin : finishEntry env nm ent = ({ name := nm } : NetworkInfo) := by
    rw [hent]
    unfold finishEntry
    rw [hmac]
    rw [applyCounters_none hrx htx]
    rfl
  unfold collectNetworkInfo
  rw [h]
  refine (List.perm_insertionSort netLe _).mem_iff.mpr ?_
  refine List.mem_map.mpr ⟨(k, ent), hp, ?_⟩
  show finishEntry env k ent = ({ name := nm } : NetworkInfo)
  rw [hfst]
  exact hfin

/-- Witness for C7 on `c7wEnv`: `eth0` appears twice without a usable
address, its MAC file is absent and its counter files unparsable, yet the
output contains the all-default `eth0` entry. -/
theorem c7_presence_by_name_witness :
    ({ name := "eth0" } : NetworkInfo) ∈ collectNetworkInfo c7wEnv :=
  c7_presence_by_name c7wEnv [⟨"eth0", none⟩, ⟨"eth0", some AddrFam.other⟩] "eth0"
    rfl (by decide) (by decide) rfl (by decide) (by decide)

/-! ## Claim C9 -/

/-- C9: for every environment (hence every input ordering of the mount
table and the interface enumeration), the disks sequence is strictly
ascending by `mountPoint` and the network sequence strictly ascending by
`name`. -/
theorem c9_strictly_sorted (env : Env) :
    List.Sorted (· < ·) ((collectDiskInfo env.disk).map DiskInfo.mountPoint) ∧
    List.Sorted (· < ·) ((collectNetworkInfo env.net).map NetworkInfo.name) := by
  constructor
  · cases h : env.disk.mounts with
    | none => simp [collectDiskInfo, h]
    | some ls =>
      unfold collectDiskInfo
      simp only [h]
      have hs : List.Pairwise diskLe
          (List.insertionSort diskLe (collectDiskGo env.disk.statvfs [] ls)) :=
        List.sorted_insertionSort diskLe _
      have hnd : ((List.insertionSort diskLe
          (collectDiskGo env.disk.statvfs [] ls)).map DiskInfo.mountPoint).Nodup :=
        ((List.perm_insertionSort diskLe _).map DiskInfo.mountPoint).nodup_iff.mpr
          collectDiskGo_nodup
      have hnd2 : List.Pairwise (fun a b : DiskInfo => a.mountPoint ≠ b.mountPoint)
          (List.insertionSort diskLe (collectDiskGo env.disk.statvfs [] ls)) :=
        List.pairwise_map.mp hnd
      exact List.pairwise_map.mpr
        ((hs.and hnd2).imp fun hab => lt_of_le_of_ne hab.1 hab.2)
  · cases h : env.net.ifaddrList with
    | none => simp [collectNetworkInfo, h]
    | some es =>
      unfold collectNetworkInfo
      simp only [h]
      have hinv : NetInv (es.foldl netStep []) := netInv_foldl ⟨List.nodup_nil, by simp⟩
      have hs : List.Pairwise netLe
          (List.insertionSort netLe ((es.foldl netStep []).map fun p =>
            finishEntry env.net p.1 p.2)) :=
        List.sorted_insertionSort netLe _
      have hmapeq : (((es.foldl netStep []).map fun p =>
          finishEntry env.net p.1 p.2).map NetworkInfo.name)
            = (es.foldl netStep []).map Prod.fst := by
        rw [List.map_map]
        refine List.map_congr_left ?_
        intro p hp
        show (finishEntry env.net p.1 p.2).name = p.1
        rw [finishEntry_name]
        exact (hinv.2 p hp).1
      have hnd : ((List.insertionSort netLe ((es.foldl netStep []).map fun p =>
          finishEntry env.net p.1 p.2)).map NetworkInfo.name).Nodup := by
        refine ((List.perm_insertionSort netLe _).map NetworkInfo.name).nodup_iff.mpr ?_
        rw [hmapeq]
        exact hinv.1
      have hnd2 : List.Pairwise (fun a b : NetworkInfo => a.name ≠ b.name)
          (List.insertionSort netLe ((es.foldl netStep []).map fun p =>
            finishEntry env.net p.1 p.2)) :=
        List.pairwise_map.mp hnd
      exact List.pairwise_map.mpr
        ((hs.and hnd2).imp fun hab => lt_of_le_of_ne hab.1 hab.2)

end Statio
